import Mathlib

/-!
Verification development for the `dargparser` repository: a shallow embedding
of the schema-to-argparse compiler (`_parse_dataclass_field`), the token
coercion helpers (`string_to_bool`, `make_choice_type_function`), the config
file merger and result assembler (`parse_args_into_dataclasses`), and the
`dargparse` entry point.

Python strings are modelled as `List Char`; Python object identity of list
values (needed for default sharing questions) is modelled with an allocation
counter giving each list value an id.  Python floats are modelled as `Rat`
(no float arithmetic is performed by the code: float defaults just pass
through).  The relevant fragment of `argparse` (an external collaborator) is
modelled from its documented semantics for optional arguments with
`nargs ∈ {None, '?', '+'}`, `store` / `store_false` actions, choices, defaults
and `parse_known_args` extras.
-/

deriving instance DecidableEq for Except

namespace Darg

/-- Python strings. -/
abbrev PyStr := List Char

/-- Shorthand to turn a Lean string literal into a modelled Python string. -/
def tk (s : String) : PyStr := s.data

/-- Scalar Python values handled by the library: str, int, float, bool, None. -/
inductive Scalar where
  | sstr (s : PyStr)
  | sint (n : Int)
  | sfloat (q : Rat)
  | sbool (b : Bool)
  | snone
deriving DecidableEq, Repr

/-- A Python value in a parse result: a scalar, or a list object.  The `id`
of a list records its allocation identity (two lists are the same object
exactly when their ids coincide). -/
inductive Value where
  | scalar (v : Scalar)
  | vlist (id : Nat) (elems : List Scalar)
deriving DecidableEq, Repr

instance : Inhabited Scalar := ⟨.snone⟩

instance : Inhabited Value := ⟨.scalar .snone⟩

/-- Python `str()` of a scalar, as used by `make_choice_type_function`
(`{str(choice): choice for choice in choices}`). -/
def Scalar.pyStr : Scalar → PyStr
  | .sstr s => s
  | .sint n => (toString n).data
  | .sfloat q => (toString q).data
  | .sbool true => tk "True"
  | .sbool false => tk "False"
  | .snone => tk "None"

/-- Lower-casing, modelling Python `str.lower` on ASCII data. -/
def lowerStr (s : PyStr) : PyStr := s.map Char.toLower

/-- The truthy tokens of `string_to_bool` (helpers.py line 8). -/
def truthyTokens : List PyStr := [tk "yes", tk "true", tk "t", tk "y", tk "1"]

/-- The falsy tokens of `string_to_bool` (helpers.py line 10). -/
def falsyTokens : List PyStr := [tk "no", tk "false", tk "f", tk "n", tk "0"]

/-- Parse-time (usage) error causes. -/
inductive UsageMsg where
  /-- argparse: `expected one argument` / `expected at least one argument`. -/
  | expectedArg (dest : PyStr)
  /-- A `type=` coercion function raised (e.g. `ArgumentTypeError` from
  `string_to_bool`, or `ValueError` from `int`/`float`). -/
  | badCoercion (token : PyStr)
  /-- argparse: `invalid choice`. -/
  | invalidChoice (v : Scalar)
  /-- argparse: `the following arguments are required: ...`. -/
  | missingRequired (dests : List PyStr)
  /-- dargparser: `Some specified arguments are not used by dargparse: ...`. -/
  | unusedArgs (toks : List PyStr)
deriving DecidableEq, Repr

/-- Errors of the whole pipeline.  `configError` carries the name of the
offending field (construction-time `ValueError` in `_parse_dataclass_field`). -/
inductive DError where
  | configError (fieldName : PyStr)
  | usageError (msg : UsageMsg)
deriving DecidableEq, Repr

/-- helpers.py `string_to_bool` (lines 5-15): case-insensitive truthy/falsy
tokens, anything else raises `ArgumentTypeError`. -/
def string_to_bool (v : PyStr) : Except UsageMsg Scalar :=
  if lowerStr v ∈ truthyTokens then .ok (.sbool true)
  else if lowerStr v ∈ falsyTokens then .ok (.sbool false)
  else .error (.badCoercion v)

/-- Python-dict assignment, modelled as an association list read through
`dictGet` (first match wins), so an assignment shadows any earlier binding
of the same key exactly as a dict overwrite does. -/
def dictInsert (m : List (PyStr × Scalar)) (k : PyStr) (v : Scalar) :
    List (PyStr × Scalar) :=
  (k, v) :: m

/-- Association list lookup (Python `dict.get` without default). -/
def dictGet (m : List (PyStr × Scalar)) (k : PyStr) : Option Scalar :=
  (m.find? (fun p => p.1 = k)).map (·.2)

/-- The dict `{str(choice): choice for choice in choices}` built by
`make_choice_type_function` (helpers.py line 29). -/
def strToChoiceDict (choices : List Scalar) : List (PyStr × Scalar) :=
  choices.foldl (fun m c => dictInsert m c.pyStr c) []

/-- helpers.py `make_choice_type_function` (lines 18-30): map a token to the
choice whose `str()` equals it, or return the token itself on no match
(`str_to_choice.get(arg, arg)`). -/
def make_choice_type_function (choices : List Scalar) (arg : PyStr) : Scalar :=
  (dictGet (strToChoiceDict choices) arg).getD (.sstr arg)

/-- Model of Python `int(token)`: optional sign followed by digits. -/
def pyInt (s : PyStr) : Except UsageMsg Scalar :=
  let core : PyStr → Option Nat := fun ds =>
    if ds = [] ∨ ¬ ds.all Char.isDigit then none
    else some (ds.foldl (fun acc c => acc * 10 + (c.toNat - '0'.toNat)) 0)
  match s with
  | '-' :: rest =>
      match core rest with
      | some n => .ok (.sint (-(n : Int)))
      | none => .error (.badCoercion s)
  | _ =>
      match core s with
      | some n => .ok (.sint (n : Int))
      | none => .error (.badCoercion s)

/-- Model of Python `float(token)`: digits with an optional fractional part. -/
def pyFloat (s : PyStr) : Except UsageMsg Scalar :=
  let digits : PyStr → Option Nat := fun ds =>
    if ds = [] ∨ ¬ ds.all Char.isDigit then none
    else some (ds.foldl (fun acc c => acc * 10 + (c.toNat - '0'.toNat)) 0)
  let (neg, body) : Bool × PyStr :=
    match s with
    | '-' :: rest => (true, rest)
    | _ => (false, s)
  let intPart := body.takeWhile (fun c => c ≠ '.')
  let rest := body.drop intPart.length
  let value : Option Rat :=
    match rest with
    | [] => (digits intPart).map (fun n => (n : Rat))
    | '.' :: frac =>
        match digits intPart, digits frac with
        | some n, some f => some ((n : Rat) + (f : Rat) / ((10 : Rat) ^ frac.length))
        | _, _ => none
    | _ => none
  match value with
  | some q => .ok (.sfloat (if neg then -q else q))
  | none => .error (.badCoercion s)

/-- Model of Python `bool(token)` (the builtin, which argparse would call for
a `list[bool]` element): any non-empty string is truthy. -/
def pyBoolCtor (s : PyStr) : Except UsageMsg Scalar :=
  .ok (.sbool (s ≠ []))

/-- The coercion function stored in `kwargs["type"]` by
`_parse_dataclass_field`. -/
inductive Coerce where
  | cstr
  | cint
  | cfloat
  | cboolCtor
  | cStringToBool
  | cchoice (choices : List Scalar)
deriving DecidableEq, Repr

/-- Apply a coercion function to a raw token. -/
def applyCoerce : Coerce → PyStr → Except UsageMsg Scalar
  | .cstr, s => .ok (.sstr s)
  | .cint, s => pyInt s
  | .cfloat, s => pyFloat s
  | .cboolCtor, s => pyBoolCtor s
  | .cStringToBool, s => string_to_bool s
  | .cchoice cs, s => .ok (make_choice_type_function cs s)

/-- Arity of an optional argument: argparse `nargs` of `None` (exactly one
token), `'?'` (zero or one token, zero yielding `const`), `'+'` (one or
more tokens). -/
inductive Nargs where
  | one
  | opt
  | plus
deriving DecidableEq, Repr

/-- The behaviour of a registered argument. -/
inductive ActKind where
  | store (ty : Coerce) (nargs : Nargs) (const : Option Scalar)
      (choices : Option (List Scalar))
  | storeFalse
deriving DecidableEq, Repr

/-- One argparse action, as registered by `parser.add_argument`. -/
structure Action where
  optionStrings : List PyStr
  dest : PyStr
  kind : ActKind
  default : Value
  required : Bool
deriving DecidableEq, Repr

/-- Does a token look like an option?  Modelled from argparse
`_parse_optional`: it must start with a prefix char (`-`) and have more than
one character.  (Tokens looking like negative numbers and the bare `--`
separator do not occur in the workloads modelled here.) -/
def isOptionTok : PyStr → Bool
  | [] => false
  | [_] => false
  | c :: _ :: _ => c = '-'

/-- The parsed namespace: destination key to value, in insertion order
(Python `Namespace.__dict__`). -/
abbrev Namespace := List (PyStr × Value)

/-- `setattr`: overwrite an existing key in place, else append. -/
def nsSet (ns : Namespace) (k : PyStr) (v : Value) : Namespace :=
  if ns.any (fun p => p.1 = k) then
    ns.map (fun p => if p.1 = k then (k, v) else p)
  else
    ns ++ [(k, v)]

/-- `getattr` on the namespace. -/
def nsGet (ns : Namespace) (k : PyStr) : Option Value :=
  (ns.find? (fun p => p.1 = k)).map (·.2)

/-- First registered action owning the given option string, with its index. -/
def findAction (acts : List Action) (t : PyStr) : Option (Nat × Action) :=
  acts.enum.find? (fun p => p.2.optionStrings.contains t)

/-- State threaded through the matching loop: namespace, indices of seen
actions, unmatched extras, and the list allocation counter. -/
structure MatchState where
  ns : Namespace
  seen : List Nat
  extras : List PyStr
  ctr : Nat
deriving DecidableEq, Repr

/-- argparse `_check_value`: choices validation. -/
def checkChoice (choices : Option (List Scalar)) (v : Scalar) :
    Except UsageMsg Unit :=
  match choices with
  | none => .ok ()
  | some cs => if v ∈ cs then .ok () else .error (.invalidChoice v)

/-- The value taken when a `nargs='?'` option appears with no following
token: `action.const` (argparse `_get_values`, the `OPTIONAL and not
arg_strings` branch; a string const would additionally be coerced, which
never happens for actions built by this library). -/
def constValue (const : Option Scalar) : Scalar :=
  const.getD .snone

/-- Consume the token list, matching option strings against the registered
actions: the loop of argparse `_parse_known_args` specialised to a parser
with no positionals.  `fuel` bounds the recursion and is unreachable as long
as `fuel ≥ toks.length` (each step consumes at least one token). -/
def stepTokens (acts : List Action) :
    Nat → List PyStr → MatchState → Except UsageMsg MatchState
  | _, [], st => .ok st
  | 0, _, st => .ok st
  | fuel + 1, t :: rest, st =>
    if isOptionTok t then
      match findAction acts t with
      | none => stepTokens acts fuel rest { st with extras := st.extras ++ [t] }
      | some (i, a) =>
        match a.kind with
        | .storeFalse =>
            stepTokens acts fuel rest
              { st with ns := nsSet st.ns a.dest (.scalar (.sbool false)),
                        seen := st.seen ++ [i] }
        | .store ty nargs const choices =>
          match nargs with
          | .one =>
            match rest with
            | v :: rest' =>
              if isOptionTok v then .error (.expectedArg a.dest)
              else
                match applyCoerce ty v with
                | .error e => .error e
                | .ok sv =>
                  match checkChoice choices sv with
                  | .error e => .error e
                  | .ok _ =>
                    stepTokens acts fuel rest'
                      { st with ns := nsSet st.ns a.dest (.scalar sv),
                                seen := st.seen ++ [i] }
            | [] => .error (.expectedArg a.dest)
          | .opt =>
            match rest with
            | v :: rest' =>
              if isOptionTok v then
                stepTokens acts fuel rest
                  { st with ns := nsSet st.ns a.dest (.scalar (constValue const)),
                            seen := st.seen ++ [i] }
              else
                match applyCoerce ty v with
                | .error e => .error e
                | .ok sv =>
                  match checkChoice choices sv with
                  | .error e => .error e
                  | .ok _ =>
                    stepTokens acts fuel rest'
                      { st with ns := nsSet st.ns a.dest (.scalar sv),
                                seen := st.seen ++ [i] }
            | [] =>
                stepTokens acts fuel []
                  { st with ns := nsSet st.ns a.dest (.scalar (constValue const)),
                            seen := st.seen ++ [i] }
          | .plus =>
            let run := rest.takeWhile (fun v => ¬ isOptionTok v)
            let rest' := rest.drop run.length
            if run = [] then .error (.expectedArg a.dest)
            else
              match run.mapM (applyCoerce ty) with
              | .error e => .error e
              | .ok svs =>
                match svs.mapM (checkChoice choices) with
                | .error e => .error e
                | .ok _ =>
                  stepTokens acts fuel rest'
                    { st with ns := nsSet st.ns a.dest (.vlist st.ctr svs),
                              seen := st.seen ++ [i],
                              ctr := st.ctr + 1 }
    else
      stepTokens acts fuel rest { st with extras := st.extras ++ [t] }

/-- argparse `parse_known_args` default filling: in registration order, set
each action's default if its destination is not yet present. -/
def applyDefaults (acts : List Action) (ns : Namespace) : Namespace :=
  acts.foldl
    (fun ns a => if (nsGet ns a.dest).isSome then ns else ns ++ [(a.dest, a.default)])
    ns

/-- Successful result of `parse_known_args`. -/
structure ParseOk where
  ns : Namespace
  extras : List PyStr
  ctr : Nat
deriving DecidableEq, Repr

/-- Destinations of required actions that were never seen. -/
def missingRequired (acts : List Action) (seen : List Nat) : List PyStr :=
  (acts.enum.filter (fun p => p.2.required ∧ p.1 ∉ seen)).map (fun p => p.2.dest)

/-- argparse `parse_known_args` on a parser holding only optional actions:
fill defaults, match the token stream, then enforce required actions. -/
def parseKnownArgs (acts : List Action) (args : List PyStr) (ctr : Nat) :
    Except UsageMsg ParseOk :=
  let ns0 := applyDefaults acts []
  match stepTokens acts args.length args ⟨ns0, [], [], ctr⟩ with
  | .error e => .error e
  | .ok st =>
    match missingRequired acts st.seen with
    | [] => .ok ⟨st.ns, st.extras, st.ctr⟩
    | ms => .error (.missingRequired ms)

/-- A primitive (non-generic) annotation that can occur as a `Union` arm:
`str`, `int`, `float`, `bool`, `NoneType`. -/
inductive PBase where
  | bstr
  | bint
  | bfloat
  | bbool
  | bnone
deriving DecidableEq, Repr

/-- The declared type of a dataclass field, after `get_type_hints`. -/
inductive PyType where
  | prim (b : PBase)
  | punion (args : List PBase)
  | pliteral (choices : List Scalar)
  | plist (elem : PyType)
deriving DecidableEq, Repr

/-- Is a type `Optional[bool]` in the Python `==` sense (a two-arm Union
whose arms are `bool` and `NoneType`)? -/
def isOptionalBool : PyType → Bool
  | .punion args => args.length = 2 ∧ .bbool ∈ args ∧ .bnone ∈ args
  | _ => false

/-- A zero-argument default factory.  `constList` returns one fixed list
object on every call (the `lambda: default_copy` made by `dArg` for a
literal list default); `freshList` allocates a new list each call (e.g. the
`list` builtin passed as `default_factory`). -/
inductive Factory where
  | constList (id : Nat) (elems : List Scalar)
  | freshList (elems : List Scalar)
deriving DecidableEq, Repr

/-- Call a factory, threading the allocation counter. -/
def runFactory : Factory → Nat → Value × Nat
  | .constList id l, c => (.vlist id l, c)
  | .freshList l, c => (.vlist c l, c + 1)

/-- A `dataclasses.Field` as consumed by `_parse_dataclass_field`:
`default = none` models `dataclasses.MISSING` (and `some .snone` models an
explicit `None` default); `default_factory = none` models MISSING. -/
structure DField where
  name : PyStr
  type : PyType
  default : Option Scalar
  default_factory : Option Factory
  aliases : List PyStr
deriving DecidableEq, Repr

/-- The `default=` argument accepted by `dArg`. -/
inductive DArgDefault where
  | missing
  | scalar (s : Scalar)
  | list (elems : List Scalar)
deriving DecidableEq, Repr

/-- parsing.py `dArg` (lines 84-140), restricted to the parts that reach the
field compiler: a literal list default is shallow-copied once (a fresh
allocation) and redirected to a `default_factory` returning that one copy,
with `default` reset to MISSING. -/
def dArg (name : PyStr) (type : PyType) (default : DArgDefault)
    (aliases : List PyStr) (default_factory : Option Factory) (ctr : Nat) :
    DField × Nat :=
  match default with
  | .list l => (⟨name, type, none, some (.constList ctr l), aliases⟩, ctr + 1)
  | .scalar s => (⟨name, type, some s, default_factory, aliases⟩, ctr)
  | .missing => (⟨name, type, none, default_factory, aliases⟩, ctr)

/-- The Union normalisation of `_parse_dataclass_field` (parsing.py lines
188-203, the `typing.Union` branch): raise unless the Union contains `str`
or is a two-arm Union with a `NoneType` arm; then filter `str` out of a
Union without `NoneType`, filter `NoneType` out of a Union without `bool`,
and keep `Optional[bool]` as is. -/
def resolveUnion (f : DField) : Except DError PyType :=
  match f.type with
  | .punion args =>
    if .bstr ∉ args ∧ (args.length ≠ 2 ∨ .bnone ∉ args) then
      .error (.configError f.name)
    else
      match args with
      | a0 :: a1 :: _ =>
        if .bnone ∉ args then
          .ok (.prim (if a1 = .bstr then a0 else a1))
        else if .bbool ∉ args then
          .ok (.prim (if a1 = .bnone then a0 else a1))
        else
          .ok (.punion args)
      | _ => .error (.configError f.name)
  | t => .ok t

/-- The coercion function for `kwargs["type"] = field.type` (a primitive
annotation used directly as the argparse type). -/
def typeToCoerce : PyType → Coerce
  | .prim .bstr => .cstr
  | .prim .bint => .cint
  | .prim .bfloat => .cfloat
  | .prim .bbool => .cboolCtor
  | _ => .cstr

/-- The primary flag `--{field.name}`. -/
def flagOf (name : PyStr) : PyStr := tk "--" ++ name

/-- The synthesized negation flag `--no_{field.name}`. -/
def noFlagOf (name : PyStr) : PyStr := tk "--no_" ++ name

/-- parsing.py `_parse_dataclass_field` (lines 172-289): resolve the declared
type, dispatch on Literal / bool / list / other, and register one argparse
action (plus the `no_*` complement after it for a true-default boolean).
Returns the registered actions and the updated allocation counter. -/
def compileField (f : DField) (ctr : Nat) : Except DError (List Action × Nat) :=
  match resolveUnion f with
  | .error e => .error e
  | .ok ty =>
    let optStrings := flagOf f.name :: f.aliases
    match ty with
    | .pliteral cs =>
      let (dflt, req) : Value × Bool :=
        match f.default with
        | some d => (.scalar d, false)
        | none => (.scalar .snone, true)
      .ok ([⟨optStrings, f.name, .store (.cchoice cs) .one none (some cs), dflt, req⟩],
           ctr)
    | _ =>
      if ty = .prim .bbool ∨ isOptionalBool ty then
        let primary : Action :=
          if ty = .prim .bbool ∨ (f.default ≠ some .snone ∧ f.default ≠ none) then
            let d : Scalar := match f.default with
              | none => .sbool false
              | some d => d
            ⟨optStrings, f.name, .store .cStringToBool .opt (some (.sbool true)) none,
             .scalar d, false⟩
          else
            ⟨optStrings, f.name, .store .cStringToBool .one none none,
             .scalar .snone, false⟩
        if f.default = some (.sbool true) then
          .ok ([primary,
                ⟨[noFlagOf f.name], f.name, .storeFalse, .scalar (.sbool false), false⟩],
               ctr)
        else
          .ok ([primary], ctr)
      else
        match ty with
        | .plist elem =>
          let (coerce, choices) : Coerce × Option (List Scalar) :=
            match elem with
            | .pliteral cs => (.cchoice cs, some cs)
            | _ => (typeToCoerce elem, none)
          let (dflt, req, ctr') : Value × Bool × Nat :=
            match f.default_factory with
            | some fac =>
              let (v, c) := runFactory fac ctr
              (v, false, c)
            | none =>
              match f.default with
              | none => (.scalar .snone, true, ctr)
              | some _ => (.scalar .snone, false, ctr)
          .ok ([⟨optStrings, f.name, .store coerce .plus none choices, dflt, req⟩], ctr')
        | _ =>
          let (dflt, req, ctr') : Value × Bool × Nat :=
            match f.default with
            | some d => (.scalar d, false, ctr)
            | none =>
              match f.default_factory with
              | some fac =>
                let (v, c) := runFactory fac ctr
                (v, false, c)
              | none => (.scalar .snone, true, ctr)
          .ok ([⟨optStrings, f.name, .store (typeToCoerce ty) .one none none, dflt, req⟩],
               ctr')

/-- One dataclass type registered on the parser. -/
structure Schema where
  fields : List DField
deriving DecidableEq, Repr

/-- A constructed `dArgParser`: the registered actions and the dataclass
types, in registration order. -/
structure DParser where
  actions : List Action
  schemas : List Schema
deriving DecidableEq, Repr

/-- Compile a list of fields in order, accumulating registered actions. -/
def compileFields : List DField → List Action → Nat → Except DError (List Action × Nat)
  | [], acc, c => .ok (acc, c)
  | f :: fs, acc, c =>
    match compileField f c with
    | .error e => .error e
    | .ok (as, c') => compileFields fs (acc ++ as) c'

/-- Compile the fields of one dataclass (`_add_dataclass_arguments`). -/
def compileSchema (s : Schema) (acc : List Action) (ctr : Nat) :
    Except DError (List Action × Nat) :=
  compileFields s.fields acc ctr

/-- Compile all dataclass types in order. -/
def compileSchemaList : List Schema → List Action → Nat → Except DError (List Action × Nat)
  | [], acc, c => .ok (acc, c)
  | s :: ss, acc, c =>
    match compileSchema s acc c with
    | .error e => .error e
    | .ok (as, c') => compileSchemaList ss as c'

/-- Construct the parser from the dataclass types (`dArgParser.__init__`). -/
def compileSchemas (ss : List Schema) (ctr : Nat) : Except DError (DParser × Nat) :=
  match compileSchemaList ss [] ctr with
  | .error e => .error e
  | .ok (acts, c) => .ok (⟨acts, ss⟩, c)

/-- The args-file-flag extraction parser of `parse_args_into_dataclasses`
(parsing.py lines 360-366): a bare `ArgumentParser` with one repeatable
string argument.  Each occurrence of the flag consumes the following
non-option token as a file path; every other token is left, in order, in the
remaining args.  Returns `(paths, remaining)`. -/
def extractConfig (flag : PyStr) : List PyStr → Except UsageMsg (List PyStr × List PyStr)
  | [] => .ok ([], [])
  | t :: rest =>
    if t = flag then
      match rest with
      | [] => .error (.expectedArg flag)
      | v :: rest' =>
        if isOptionTok v then .error (.expectedArg flag)
        else
          match extractConfig flag rest' with
          | .error e => .error e
          | .ok (ps, rem) => .ok (v :: ps, rem)
    else
      match extractConfig flag rest with
      | .error e => .error e
      | .ok (ps, rem) => .ok (ps, t :: rem)

/-- The file system: a path maps to the whitespace-split token list of the
file's contents, or `none` when the file does not exist. -/
abbrev FileSys := PyStr → Option (List PyStr)

/-- The file loading loop (parsing.py lines 371-376): concatenate the tokens
of existing files in order; a missing file produces a warning (its path) and
is skipped.  Returns `(file tokens, warnings)`. -/
def loadArgsFiles (fs : FileSys) (paths : List PyStr) : List PyStr × List PyStr :=
  paths.foldl
    (fun acc p =>
      match fs p with
      | some toks => (acc.1 ++ toks, acc.2)
      | none => (acc.1, acc.2 ++ [p]))
    ([], [])

/-- The config merge step of `parse_args_into_dataclasses` (lines 350-380):
gather the files named by `args_filename` and by occurrences of
`args_file_flag` in the command line, load them, and prepend their tokens to
the remaining command-line tokens.  Returns the final token stream and the
missing-file warnings.  (When neither source is configured the args pass
through untouched.) -/
def mergeConfigTokens (args_file_flag : Option PyStr) (args_filename : Option PyStr)
    (fs : FileSys) (args : List PyStr) :
    Except UsageMsg (List PyStr × List PyStr) :=
  match args_file_flag, args_filename with
  | none, none => .ok (args, [])
  | _, _ =>
    let baseFiles : List PyStr :=
      match args_filename with
      | some f => [f]
      | none => []
    match args_file_flag with
    | some flag =>
      match extractConfig flag args with
      | .error e => .error e
      | .ok (paths, stripped) =>
        let (ftoks, ws) := loadArgsFiles fs (baseFiles ++ paths)
        .ok (ftoks ++ stripped, ws)
    | none =>
      let (ftoks, ws) := loadArgsFiles fs baseFiles
      .ok (ftoks ++ args, ws)

/-- One element of the tuple returned by `parse_args_into_dataclasses`: a
filled dataclass instance (tagged with the index of its dataclass type), the
auxiliary namespace of non-dataclass arguments, or the remaining strings. -/
inductive Output where
  | record (idx : Nat) (fields : List (PyStr × Value))
  | extraNamespace (fields : List (PyStr × Value))
  | remaining (toks : List PyStr)
deriving DecidableEq, Repr

/-- The assembly loop (parsing.py lines 382-389): for each dataclass type in
order, extract its keys from the namespace (removing them) and build the
instance.  Returns the instances and the leftover namespace. -/
def assembleRecords : List Schema → Namespace → Nat → List Output × Namespace
  | [], ns, _ => ([], ns)
  | s :: rest, ns, i =>
    let keys := s.fields.map (·.name)
    let inputs := ns.filter (fun p => p.1 ∈ keys)
    let ns' := ns.filter (fun p => p.1 ∉ keys)
    let (outs, nsF) := assembleRecords rest ns' (i + 1)
    (.record i inputs :: outs, nsF)

/-- Successful pipeline result: the output tuple and the warnings printed for
missing config files. -/
structure PipeResult where
  outputs : List Output
  warnings : List PyStr
deriving DecidableEq, Repr

/-- parsing.py `parse_args_into_dataclasses` (lines 313-399): merge config
file tokens, run `parse_known_args`, assemble the dataclass instances, and
either return or reject the remaining strings. -/
def parseArgsIntoDataclasses (P : DParser) (args : List PyStr)
    (return_remaining_strings : Bool) (args_filename : Option PyStr)
    (args_file_flag : Option PyStr) (fs : FileSys) (ctr : Nat) :
    Except DError PipeResult :=
  match mergeConfigTokens args_file_flag args_filename fs args with
  | .error e => .error (.usageError e)
  | .ok (finalArgs, warnings) =>
    match parseKnownArgs P.actions finalArgs ctr with
    | .error e => .error (.usageError e)
    | .ok res =>
      let asm := assembleRecords P.schemas res.ns 0
      let outs := if asm.2 ≠ [] then asm.1 ++ [.extraNamespace asm.2] else asm.1
      if return_remaining_strings then
        .ok ⟨outs ++ [.remaining res.extras], warnings⟩
      else if res.extras ≠ [] then
        .error (.usageError (.unusedArgs res.extras))
      else
        .ok ⟨outs, warnings⟩

/-- The caller-visible result of `dargparse`: a lone dataclass instance, or
the tuple of outputs. -/
inductive DargResult where
  | single (o : Output)
  | tuple (os : List Output)
deriving DecidableEq, Repr

/-- parsing.py `dargparse` (lines 65-81): build the parser, parse with the
config flag, and unwrap a one-element result when the caller passed a single
dataclass rather than a tuple.  `isTuple` records whether the `dataclasses`
argument was a tuple. -/
def dargparse (schemas : List Schema) (isTuple : Bool) (config_flag : PyStr)
    (args : List PyStr) (fs : FileSys) (ctr : Nat) :
    Except DError (DargResult × List PyStr) :=
  match compileSchemas schemas ctr with
  | .error e => .error e
  | .ok (P, ctr') =>
    match parseArgsIntoDataclasses P args false none (some config_flag) fs ctr' with
    | .error e => .error e
    | .ok res =>
      match res.outputs, isTuple with
      | [o], false => .ok (.single o, res.warnings)
      | os, _ => .ok (.tuple os, res.warnings)

/-! ## Theorems about the embedded program -/

/-- The rational `1/10`, written in reduced form: the model of the Python
float literal `0.1`. -/
def ratPointOne : Rat := ⟨1, 10, by decide, by decide⟩

/-- An empty file system (no config file exists). -/
def noFiles : FileSys := fun _ => none

/-- The schema of the end-to-end example: `epochs: int` (required),
`lr: float = dArg(default=0.1, aliases="--lr")`,
`flag: bool = dArg(default=True)`. -/
def c8Schema : Schema := ⟨[
  ⟨tk "epochs", .prim .bint, none, none, []⟩,
  ⟨tk "lr", .prim .bfloat, some (.sfloat ratPointOne), none, [tk "--lr"]⟩,
  ⟨tk "flag", .prim .bbool, some (.sbool true), none, []⟩]⟩

/-- C8: for the schema `{epochs: int required, lr: float with default 0.1 and
alias --lr, flag: bool with default true}` and input
`["--epochs", "5", "--no_flag"]`, parsing succeeds and produces the single
record `{epochs: 5, lr: 0.1, flag: false}`. -/
theorem c8_end_to_end :
    dargparse [c8Schema] false (tk "--cfg") [tk "--epochs", tk "5", tk "--no_flag"]
        noFiles 0
      = .ok (.single (.record 0
          [(tk "epochs", .scalar (.sint 5)),
           (tk "lr", .scalar (.sfloat ratPointOne)),
           (tk "flag", .scalar (.sbool false))]), []) := by
  decide

/-- A field whose declared type is `Union[int, str]`: two arms, neither of
which is `NoneType`. -/
def c1Field : DField := ⟨tk "x", .punion [.bint, .bstr], none, none, []⟩

/-- C1 counterexample: a field of type `Union[int, str]` has exactly two
Union arms, neither of which is NoneType, yet parser construction does not
raise: `if str not in field.type.__args__ and ...` (parsing.py line 190)
exempts every Union containing `str`, and the field is accepted with the
`str` arm filtered out (it compiles to an ordinary required `int` argument). -/
theorem c1_union_with_str_accepted :
    compileField c1Field 0
      = .ok ([⟨[tk "--x"], tk "x", .store .cint .one none none,
              .scalar .snone, true⟩], 0) := by
  decide

/-- C1 (amended): for every field whose declared type is a `typing.Union`
whose arms do not include `str`, with three or more arms or with exactly two
arms neither of which is NoneType, parser construction raises a
ConfigurationError naming the field (so such a field never reaches parse
time). -/
theorem c1_union_config_error (f : DField) (args : List PBase) (c : Nat)
    (ht : f.type = .punion args) (hs : .bstr ∉ args)
    (h2 : args.length ≠ 2 ∨ .bnone ∉ args) :
    compileField f c = .error (.configError f.name) := by
  have hres : resolveUnion f = .error (.configError f.name) := by
    unfold resolveUnion
    rw [ht]
    simp only [if_pos (⟨hs, h2⟩ : .bstr ∉ args ∧ (args.length ≠ 2 ∨ .bnone ∉ args))]
  unfold compileField
  rw [hres]

/-- Witness for `c1_union_config_error` at `Union[int, float, NoneType]`
(three arms). -/
theorem c1_union_config_error_witness :
    compileField ⟨tk "x", .punion [.bint, .bfloat, .bnone], none, none, []⟩ 0
      = .error (.configError (tk "x")) :=
  c1_union_config_error _ [.bint, .bfloat, .bnone] 0 rfl (by decide) (by decide)

/-- The field `bois: list[int] = dArg(default_factory=list)` as produced by
`dArg` with allocation counter 0. -/
def c2Field : DField :=
  (dArg (tk "bois") (.plist (.prim .bint)) .missing [] (some (.freshList [])) 0).1

/-- The parser compiled over the single schema `{bois: list[int] =
dArg(default_factory=list)}`.  The factory runs once, at construction, and
its single product (the list with allocation id 0) is stored as the argparse
default. -/
def c2Parser : DParser :=
  ⟨[⟨[tk "--bois"], tk "bois", .store .cint .plus none none, .vlist 0 [], false⟩],
   [⟨[c2Field]⟩]⟩

/-- C2: the default factory of a list field is invoked once, at parser
construction (parsing.py line 261 evaluates `field.default_factory()` inside
`_parse_dataclass_field`), and every parse with no tokens for the field
returns that same single list object (allocation id 0) — regardless of the
allocation state `ctr` the parse starts from, so two separate parses on the
same parser share the underlying container instance instead of getting a
fresh factory product each. -/
theorem c2_default_factory_runs_once :
    compileSchemas [⟨[c2Field]⟩] 0 = .ok (c2Parser, 1) ∧
    ∀ ctr : Nat,
      parseArgsIntoDataclasses c2Parser [] false none none noFiles ctr
        = .ok ⟨[.record 0 [(tk "bois", .vlist 0 [])]], []⟩ := by
  exact ⟨by decide, fun ctr => rfl⟩

/-- Witness for `c2_default_factory_runs_once`: a parse starting from
allocation state 5 still returns the construction-time list object with
allocation id 0. -/
theorem c2_default_factory_runs_once_witness :
    parseArgsIntoDataclasses c2Parser [] false none none noFiles 5
      = .ok ⟨[.record 0 [(tk "bois", .vlist 0 [])]], []⟩ :=
  c2_default_factory_runs_once.2 5

/-- The field `flag: bool = dArg(default=False)`. -/
def c6Field : DField := ⟨tk "flag", .prim .bbool, some (.sbool false), none, []⟩

/-- The schema holding only `c6Field`. -/
def c6Schema : Schema := ⟨[c6Field]⟩

/-- C6: boolean token coercion accepts exactly the case-insensitive truthy
tokens `yes/true/t/y/1` (giving `True`) and falsy tokens `no/false/f/n/0`
(giving `False`) and raises a coercion error on every other token; and a
boolean field with default false compiles to a single argument (no negated
flag) with default `False`, `nargs='?'` and `const=True`, so that omitting
the flag yields false, the bare flag yields true, and `--flag no` yields
false. -/
theorem c6_bool_coercion_and_default_false :
    (∀ v : PyStr, lowerStr v ∈ truthyTokens → string_to_bool v = .ok (.sbool true)) ∧
    (∀ v : PyStr, lowerStr v ∈ falsyTokens → string_to_bool v = .ok (.sbool false)) ∧
    (∀ v : PyStr, lowerStr v ∉ truthyTokens → lowerStr v ∉ falsyTokens →
        string_to_bool v = .error (.badCoercion v)) ∧
    compileField c6Field 0
      = .ok ([⟨[tk "--flag"], tk "flag",
              .store .cStringToBool .opt (some (.sbool true)) none,
              .scalar (.sbool false), false⟩], 0) ∧
    dargparse [c6Schema] false (tk "--cfg") [] noFiles 0
      = .ok (.single (.record 0 [(tk "flag", .scalar (.sbool false))]), []) ∧
    dargparse [c6Schema] false (tk "--cfg") [tk "--flag"] noFiles 0
      = .ok (.single (.record 0 [(tk "flag", .scalar (.sbool true))]), []) ∧
    dargparse [c6Schema] false (tk "--cfg") [tk "--flag", tk "no"] noFiles 0
      = .ok (.single (.record 0 [(tk "flag", .scalar (.sbool false))]), []) := by
  refine ⟨?_, ?_, ?_, by decide, by decide, by decide, by decide⟩
  · intro v h
    unfold string_to_bool
    rw [if_pos h]
  · intro v h
    have hnt : lowerStr v ∉ truthyTokens := by
      intro ht
      simp only [truthyTokens, falsyTokens, List.mem_cons, List.not_mem_nil,
        or_false] at h ht
      rcases ht with h1 | h1 | h1 | h1 | h1 <;>
        rcases h with h2 | h2 | h2 | h2 | h2 <;>
          rw [h1] at h2 <;> exact absurd h2 (by decide)
    unfold string_to_bool
    rw [if_neg hnt, if_pos h]
  · intro v h1 h2
    unfold string_to_bool
    rw [if_neg h1, if_neg h2]

/-- Witness for `c6_bool_coercion_and_default_false`: `"YES"` coerces to
true, `"No"` to false, `"maybe"` raises. -/
theorem c6_bool_coercion_witness :
    string_to_bool (tk "YES") = .ok (.sbool true) ∧
    string_to_bool (tk "No") = .ok (.sbool false) ∧
    string_to_bool (tk "maybe") = .error (.badCoercion (tk "maybe")) :=
  ⟨c6_bool_coercion_and_default_false.1 _ (by decide),
   c6_bool_coercion_and_default_false.2.1 _ (by decide),
   c6_bool_coercion_and_default_false.2.2.1 _ (by decide) (by decide)⟩

/-- Looking a key up after a dict assignment: the new binding if the key
matches, the old dict otherwise. -/
theorem dictGet_dictInsert (m : List (PyStr × Scalar)) (k : PyStr) (v : Scalar)
    (t : PyStr) :
    dictGet (dictInsert m k v) t = if t = k then some v else dictGet m t := by
  by_cases h : t = k
  · subst h
    simp [dictGet, dictInsert, List.find?]
  · rw [if_neg h]
    unfold dictGet dictInsert
    rw [List.find?_cons_of_neg]
    simp
    exact fun he => h he.symm

/-- Folding choices none of whose string forms equal `t` into the dict does
not change the binding of `t`. -/
theorem choiceDict_untouched (cs : List Scalar) (m : List (PyStr × Scalar))
    (t : PyStr) (h : ∀ c ∈ cs, Scalar.pyStr c ≠ t) :
    dictGet (cs.foldl (fun m c => dictInsert m c.pyStr c) m) t = dictGet m t := by
  induction cs generalizing m with
  | nil => rfl
  | cons c rest ih =>
    rw [List.foldl_cons, ih _ (fun c' hc' => h c' (List.mem_cons_of_mem _ hc'))]
    rw [dictGet_dictInsert, if_neg (fun he => h c (List.mem_cons_self _ _) he.symm)]

/-- When the string forms of the choices are pairwise distinct, the dict
maps the string form of a member back to that member. -/
theorem choiceDict_found (cs : List Scalar) (m : List (PyStr × Scalar))
    (c : Scalar) (hnd : (cs.map Scalar.pyStr).Nodup) (hc : c ∈ cs) :
    dictGet (cs.foldl (fun m c => dictInsert m c.pyStr c) m) c.pyStr = some c := by
  induction cs generalizing m with
  | nil => cases hc
  | cons c0 rest ih =>
    rw [List.map_cons, List.nodup_cons] at hnd
    rw [List.foldl_cons]
    rcases List.mem_cons.1 hc with rfl | hmem
    · have hrest : ∀ c' ∈ rest, Scalar.pyStr c' ≠ c.pyStr := by
        intro c' hc' he
        exact hnd.1 (he ▸ List.mem_map_of_mem Scalar.pyStr hc')
      rw [choiceDict_untouched _ _ _ hrest, dictGet_dictInsert, if_pos rfl]
    · exact ih _ hnd.2 hmem

/-- C5: for an enumeration field with pairwise-distinct string forms, the
compiled coercion maps a token equal to some member's string form to that
member; a token matching no member's string form is returned unchanged (as
a string) and then fails the field's choice validation. -/
theorem c5_choice_coercion :
    (∀ (cs : List Scalar) (c : Scalar) (t : PyStr),
        (cs.map Scalar.pyStr).Nodup → c ∈ cs → Scalar.pyStr c = t →
        applyCoerce (.cchoice cs) t = .ok c) ∧
    (∀ (cs : List Scalar) (t : PyStr),
        (∀ c ∈ cs, Scalar.pyStr c ≠ t) →
        applyCoerce (.cchoice cs) t = .ok (.sstr t) ∧
        checkChoice (some cs) (.sstr t) = .error (.invalidChoice (.sstr t))) := by
  constructor
  · intro cs c t hnd hc ht
    subst ht
    have := choiceDict_found cs [] c hnd hc
    simp [applyCoerce, make_choice_type_function, strToChoiceDict, this]
  · intro cs t h
    have hget : dictGet (strToChoiceDict cs) t = none := by
      rw [strToChoiceDict, choiceDict_untouched cs [] t h]
      rfl
    refine ⟨by simp [applyCoerce, make_choice_type_function, hget], ?_⟩
    have hnm : Scalar.sstr t ∉ cs := fun hmem => h _ hmem rfl
    simp [checkChoice, if_neg hnm]

/-- Witness for `c5_choice_coercion` on the choices `{42, "wer"}`: the token
`"42"` maps to the integer member `42`; the token `"zzz"` passes through
unchanged and fails choice validation. -/
theorem c5_choice_coercion_witness :
    applyCoerce (.cchoice [.sint 42, .sstr (tk "wer")]) (tk "42") = .ok (.sint 42) ∧
    applyCoerce (.cchoice [.sint 42, .sstr (tk "wer")]) (tk "zzz")
      = .ok (.sstr (tk "zzz")) ∧
    checkChoice (some [.sint 42, .sstr (tk "wer")]) (.sstr (tk "zzz"))
      = .error (.invalidChoice (.sstr (tk "zzz"))) := by
  refine ⟨c5_choice_coercion.1 _ _ _ (by decide) (by decide) (by decide), ?_, ?_⟩
  · exact (c5_choice_coercion.2 [.sint 42, .sstr (tk "wer")] (tk "zzz") (by decide)).1
  · exact (c5_choice_coercion.2 [.sint 42, .sstr (tk "wer")] (tk "zzz") (by decide)).2

/-- The primary action compiled for a boolean field with default true:
`type=string_to_bool`, `nargs='?'`, `const=True`, `default=True`. -/
def boolTrueAction (name : PyStr) : Action :=
  ⟨[flagOf name], name, .store .cStringToBool .opt (some (.sbool true)) none,
   .scalar (.sbool true), false⟩

/-- The synthesized complement action `--no_<name>`: `store_false` on the
same destination, default `False`. -/
def noBoolAction (name : PyStr) : Action :=
  ⟨[noFlagOf name], name, .storeFalse, .scalar (.sbool false), false⟩

/-- The primary flag and the negated flag are distinct option strings. -/
theorem flagOf_ne_noFlagOf (name : PyStr) : flagOf name ≠ noFlagOf name := by
  intro h
  have := congrArg List.length h
  simp [flagOf, noFlagOf, tk] at this

/-- C4: a boolean field (also in its `Optional[bool]` form) with default
true compiles to exactly two actions: the primary flag followed — strictly
after it — by the negated flag `--no_<name>` on the same destination with
default false; and on the compiled actions the last occurrence wins:
`--<name> --no_<name>` parses to false and `--no_<name> --<name>` parses to
true. -/
theorem c4_bool_negation_flag (name : PyStr) (c k : Nat) :
    compileField ⟨name, .prim .bbool, some (.sbool true), none, []⟩ c
      = .ok ([boolTrueAction name, noBoolAction name], c) ∧
    compileField ⟨name, .punion [.bbool, .bnone], some (.sbool true), none, []⟩ c
      = .ok ([boolTrueAction name, noBoolAction name], c) ∧
    parseKnownArgs [boolTrueAction name, noBoolAction name]
        [flagOf name, noFlagOf name] k
      = .ok ⟨[(name, .scalar (.sbool false))], [], k⟩ ∧
    parseKnownArgs [boolTrueAction name, noBoolAction name]
        [noFlagOf name, flagOf name] k
      = .ok ⟨[(name, .scalar (.sbool true))], [], k⟩ := by
  have hne : flagOf name ≠ noFlagOf name := flagOf_ne_noFlagOf name
  have hopt1 : isOptionTok (flagOf name) = true := rfl
  have hopt2 : isOptionTok (noFlagOf name) = true := rfl
  refine ⟨rfl, rfl, ?_, ?_⟩ <;>
    simp [parseKnownArgs, stepTokens, applyDefaults, findAction, nsGet, nsSet,
      missingRequired, List.enum, constValue, boolTrueAction, noBoolAction,
      List.find?, List.contains, hne, Ne.symm hne, hopt1, hopt2]

/-- Witness for `c4_bool_negation_flag` at the field name `flag`. -/
theorem c4_bool_negation_flag_witness :
    compileField ⟨tk "flag", .prim .bbool, some (.sbool true), none, []⟩ 0
      = .ok ([boolTrueAction (tk "flag"), noBoolAction (tk "flag")], 0) ∧
    compileField ⟨tk "flag", .punion [.bbool, .bnone], some (.sbool true), none, []⟩ 0
      = .ok ([boolTrueAction (tk "flag"), noBoolAction (tk "flag")], 0) ∧
    parseKnownArgs [boolTrueAction (tk "flag"), noBoolAction (tk "flag")]
        [flagOf (tk "flag"), noFlagOf (tk "flag")] 0
      = .ok ⟨[(tk "flag", .scalar (.sbool false))], [], 0⟩ ∧
    parseKnownArgs [boolTrueAction (tk "flag"), noBoolAction (tk "flag")]
        [noFlagOf (tk "flag"), flagOf (tk "flag")] 0
      = .ok ⟨[(tk "flag", .scalar (.sbool true))], [], 0⟩ :=
  c4_bool_negation_flag (tk "flag") 0 0

/-- The file system of the precedence example: one file named `file` whose
contents tokenize to `--x 1`. -/
def c3fs : FileSys := fun p => if p = tk "file" then some [tk "--x", tk "1"] else none

/-- The schema `{x: int = dArg(default=0)}` used by the precedence example. -/
def c3Schema : Schema := ⟨[⟨tk "x", .prim .bint, some (.sint 0), none, []⟩]⟩

/-- C3: whenever the config-flag extraction succeeds, the final token stream
is exactly the concatenation of all loaded file tokens (in load order, the
explicit args file first) followed by the command-line tokens with the
config-flag occurrences stripped; and on the example — the file holds
`--x 1`, the invocation is `--cfg file --x 2` — the parsed value of `x` is
2, the command line overriding the file. -/
theorem c3_config_precedence :
    (∀ (flag : PyStr) (fn : Option PyStr) (fs : FileSys)
        (args paths stripped : List PyStr),
        extractConfig flag args = .ok (paths, stripped) →
        mergeConfigTokens (some flag) fn fs args
          = .ok ((loadArgsFiles fs (fn.toList ++ paths)).1 ++ stripped,
                 (loadArgsFiles fs (fn.toList ++ paths)).2)) ∧
    dargparse [c3Schema] false (tk "--cfg")
        [tk "--cfg", tk "file", tk "--x", tk "2"] c3fs 0
      = .ok (.single (.record 0 [(tk "x", .scalar (.sint 2))]), []) := by
  constructor
  · intro flag fn fs args paths stripped h
    cases fn <;> simp [mergeConfigTokens, h, Option.toList]
  · decide

/-- Witness for `c3_config_precedence`: on the example invocation the merged
stream is the file tokens followed by the stripped command line,
`--x 1 --x 2`. -/
theorem c3_config_precedence_witness :
    mergeConfigTokens (some (tk "--cfg")) none c3fs
        [tk "--cfg", tk "file", tk "--x", tk "2"]
      = .ok ([tk "--x", tk "1", tk "--x", tk "2"], []) := by
  rw [c3_config_precedence.1 (tk "--cfg") none c3fs
    [tk "--cfg", tk "file", tk "--x", tk "2"] [tk "file"] [tk "--x", tk "2"]
    (by decide)]
  decide

/-- C7: when the matched token stream leaves unmatched tokens, a parse that
does not permit remaining strings fails with a usage error naming exactly
those tokens, while a parse that permits them succeeds and returns them
explicitly, appended after the assembled outputs. -/
theorem c7_unmatched_tokens (P : DParser) (args finalArgs warns : List PyStr)
    (fs : FileSys) (fn flg : Option PyStr) (c : Nat) (res : ParseOk)
    (hmerge : mergeConfigTokens flg fn fs args = .ok (finalArgs, warns))
    (hparse : parseKnownArgs P.actions finalArgs c = .ok res)
    (hne : res.extras ≠ []) :
    parseArgsIntoDataclasses P args false fn flg fs c
      = .error (.usageError (.unusedArgs res.extras)) ∧
    ∃ outs, parseArgsIntoDataclasses P args true fn flg fs c
      = .ok ⟨outs ++ [.remaining res.extras], warns⟩ := by
  constructor
  · simp [parseArgsIntoDataclasses, hmerge, hparse, hne]
  · refine ⟨(if (assembleRecords P.schemas res.ns 0).2 ≠ []
        then (assembleRecords P.schemas res.ns 0).1
          ++ [.extraNamespace (assembleRecords P.schemas res.ns 0).2]
        else (assembleRecords P.schemas res.ns 0).1), ?_⟩
    simp only [parseArgsIntoDataclasses, hmerge, hparse]
    split <;> simp_all

/-- The parser compiled over `c6Schema` alone (one boolean flag). -/
def c7P : DParser :=
  ⟨[⟨[tk "--flag"], tk "flag", .store .cStringToBool .opt (some (.sbool true)) none,
     .scalar (.sbool false), false⟩], [c6Schema]⟩

/-- Witness for `c7_unmatched_tokens`: the input `--bogus 1` matches no
registered flag; without permission the parse raises naming
`["--bogus", "1"]`, with permission those tokens come back alongside the
assembled record. -/
theorem c7_unmatched_tokens_witness :
    parseArgsIntoDataclasses c7P [tk "--bogus", tk "1"] false none none noFiles 0
      = .error (.usageError (.unusedArgs [tk "--bogus", tk "1"])) ∧
    ∃ outs, parseArgsIntoDataclasses c7P [tk "--bogus", tk "1"] true none none noFiles 0
      = .ok ⟨outs ++ [.remaining [tk "--bogus", tk "1"]], []⟩ :=
  c7_unmatched_tokens c7P [tk "--bogus", tk "1"] [tk "--bogus", tk "1"] [] noFiles
    none none 0 ⟨[(tk "flag", .scalar (.sbool false))], [tk "--bogus", tk "1"], 0⟩
    (by decide) (by decide) (by decide)

/-- Tokens not containing the config flag are all passed through to the
remaining args. -/
theorem extractConfig_not_mem (flag : PyStr) (b : List PyStr) (h : flag ∉ b) :
    extractConfig flag b = .ok ([], b) := by
  induction b with
  | nil => rfl
  | cons t rest ih =>
    have ht : ¬ t = flag := fun he => h (he ▸ List.mem_cons_self _ _)
    rw [extractConfig.eq_def]
    simp [ht, ih (fun hm => h (List.mem_cons_of_mem _ hm))]

/-- Extraction skips over a flag-free prefix. -/
theorem extractConfig_append (flag : PyStr) (a rest ps rem : List PyStr)
    (ha : flag ∉ a) (hrest : extractConfig flag rest = .ok (ps, rem)) :
    extractConfig flag (a ++ rest) = .ok (ps, a ++ rem) := by
  induction a with
  | nil => simpa using hrest
  | cons t ta ih =>
    have ht : ¬ t = flag := fun he => ha (he ▸ List.mem_cons_self _ _)
    rw [List.cons_append, extractConfig.eq_def]
    simp [ht, ih (fun hm => ha (List.mem_cons_of_mem _ hm))]

/-- C9: a config-flag reference to a file that does not exist produces
exactly one warning (the missing path), contributes no tokens — the merged
stream equals the stream of the same invocation without the reference — and
the parse outcome (success value or error) is unchanged apart from the
warning. -/
theorem c9_missing_config_file (P : DParser) (flag p : PyStr) (a b : List PyStr)
    (fs : FileSys) (c : Nat) (rr : Bool)
    (hfa : flag ∉ a) (hfb : flag ∉ b) (hp : isOptionTok p = false)
    (hmiss : fs p = none) :
    mergeConfigTokens (some flag) none fs (a ++ flag :: p :: b) = .ok (a ++ b, [p]) ∧
    mergeConfigTokens (some flag) none fs (a ++ b) = .ok (a ++ b, []) ∧
    (parseArgsIntoDataclasses P (a ++ flag :: p :: b) rr none (some flag) fs c).map
        (·.outputs)
      = (parseArgsIntoDataclasses P (a ++ b) rr none (some flag) fs c).map
        (·.outputs) := by
  have hxb : extractConfig flag b = .ok ([], b) := extractConfig_not_mem flag b hfb
  have hxmid : extractConfig flag (flag :: p :: b) = .ok ([p], b) := by
    rw [extractConfig.eq_def]
    simp [hp, hxb]
  have h1 : extractConfig flag (a ++ flag :: p :: b) = .ok ([p], a ++ b) :=
    extractConfig_append flag a _ [p] b hfa hxmid
  have h2 : extractConfig flag (a ++ b) = .ok ([], a ++ b) :=
    extractConfig_append flag a b [] b hfa hxb
  have hm1 : mergeConfigTokens (some flag) none fs (a ++ flag :: p :: b)
      = .ok (a ++ b, [p]) := by
    simp [mergeConfigTokens, h1, loadArgsFiles, hmiss]
  have hm2 : mergeConfigTokens (some flag) none fs (a ++ b) = .ok (a ++ b, []) := by
    simp [mergeConfigTokens, h2, loadArgsFiles]
  refine ⟨hm1, hm2, ?_⟩
  simp only [parseArgsIntoDataclasses, hm1, hm2]
  cases hpk : parseKnownArgs P.actions (a ++ b) c with
  | error e => rfl
  | ok res =>
    by_cases he : res.extras = [] <;>
      by_cases hns : (assembleRecords P.schemas res.ns 0).2 = [] <;>
        cases rr <;> simp [he, hns, Except.map]

/-- Witness for `c9_missing_config_file`: invocation `--x 2 --cfg nofile` on
an empty file system warns about `nofile` and parses exactly like `--x 2`. -/
theorem c9_missing_config_file_witness :
    mergeConfigTokens (some (tk "--cfg")) none noFiles
        ([tk "--x", tk "2"] ++ tk "--cfg" :: tk "nofile" :: [])
      = .ok ([tk "--x", tk "2"] ++ [], [tk "nofile"]) ∧
    mergeConfigTokens (some (tk "--cfg")) none noFiles ([tk "--x", tk "2"] ++ [])
      = .ok ([tk "--x", tk "2"] ++ [], []) ∧
    (parseArgsIntoDataclasses
        ⟨[⟨[tk "--x"], tk "x", .store .cint .one none none, .scalar (.sint 0), false⟩],
         [⟨[⟨tk "x", .prim .bint, some (.sint 0), none, []⟩]⟩]⟩
        ([tk "--x", tk "2"] ++ tk "--cfg" :: tk "nofile" :: [])
        false none (some (tk "--cfg")) noFiles 0).map (·.outputs)
      = (parseArgsIntoDataclasses
        ⟨[⟨[tk "--x"], tk "x", .store .cint .one none none, .scalar (.sint 0), false⟩],
         [⟨[⟨tk "x", .prim .bint, some (.sint 0), none, []⟩]⟩]⟩
        ([tk "--x", tk "2"] ++ []) false none (some (tk "--cfg")) noFiles 0).map
        (·.outputs) :=
  c9_missing_config_file _ (tk "--cfg") (tk "nofile") [tk "--x", tk "2"] [] noFiles 0
    false (by decide) (by decide) (by decide) rfl

/-- Unfolding of the assembly loop on a non-empty schema list. -/
theorem assembleRecords_cons (s : Schema) (rest : List Schema) (ns : Namespace)
    (k : Nat) :
    assembleRecords (s :: rest) ns k
      = (Output.record k (ns.filter (fun p => p.1 ∈ s.fields.map (·.name)))
            :: (assembleRecords rest
                  (ns.filter (fun p => p.1 ∉ s.fields.map (·.name))) (k + 1)).1,
         (assembleRecords rest
            (ns.filter (fun p => p.1 ∉ s.fields.map (·.name))) (k + 1)).2) := rfl

/-- Assembly produces exactly one record per registered dataclass type. -/
theorem assembleRecords_length (ss : List Schema) (ns : Namespace) (k : Nat) :
    (assembleRecords ss ns k).1.length = ss.length := by
  induction ss generalizing ns k with
  | nil => rfl
  | cons s rest ih => simp [assembleRecords_cons, ih]

/-- The record at position `i` of the assembly belongs to the `i`-th
dataclass type (offset by the starting index `k`). -/
theorem assembleRecords_getElem? (ss : List Schema) (ns : Namespace) (k i : Nat)
    (h : i < ss.length) :
    ∃ flds, (assembleRecords ss ns k).1[i]? = some (.record (k + i) flds) := by
  induction ss generalizing ns k i with
  | nil => exact absurd h (by simp)
  | cons s rest ih =>
    cases i with
    | zero =>
      refine ⟨ns.filter (fun p => p.1 ∈ s.fields.map (·.name)), ?_⟩
      rw [assembleRecords_cons]
      simp
    | succ j =>
      obtain ⟨flds, hf⟩ := ih (ns.filter (fun p => p.1 ∉ s.fields.map (·.name)))
        (k + 1) j (by simpa using Nat.lt_of_succ_lt_succ h)
      have hadd : k + 1 + j = k + (j + 1) := by omega
      rw [hadd] at hf
      rw [assembleRecords_cons]
      exact ⟨flds, by simpa using hf⟩

/-- C10: a successful `dargparse` call made with a single dataclass (not a
tuple) whose parse yields exactly one output returns that dataclass instance
itself, not a one-element tuple; a call made with a tuple returns the tuple
of all outputs, whose `i`-th element (for each registered dataclass index
`i`) is the instance of the `i`-th dataclass type in the order the types
were passed. -/
theorem c10_single_vs_tuple (ss : List Schema) (cfg : PyStr) (args : List PyStr)
    (fs : FileSys) (c c' : Nat) (P : DParser) (res : PipeResult)
    (hcomp : compileSchemas ss c = .ok (P, c'))
    (hparse : parseArgsIntoDataclasses P args false none (some cfg) fs c' = .ok res) :
    (∀ o, res.outputs = [o] → dargparse ss false cfg args fs c
        = .ok (.single o, res.warnings)) ∧
    dargparse ss true cfg args fs c = .ok (.tuple res.outputs, res.warnings) ∧
    ∀ i, i < ss.length → ∃ flds, res.outputs[i]? = some (.record i flds) := by
  refine ⟨?_, ?_, ?_⟩
  · intro o ho
    simp [dargparse, hcomp, hparse, ho]
  · rcases houts : res.outputs with _ | ⟨o, _ | ⟨o2, os⟩⟩ <;>
      simp [dargparse, hcomp, hparse, houts]
  · intro i hi
    have hsch : P.schemas = ss := by
      unfold compileSchemas at hcomp
      rcases hcl : compileSchemaList ss [] c with e | ⟨acts, c2⟩ <;> rw [hcl] at hcomp
      · cases hcomp
      · cases hcomp
        rfl
    unfold parseArgsIntoDataclasses at hparse
    rcases hm : mergeConfigTokens (some cfg) none fs args with e | ⟨finalArgs, warns⟩ <;>
      rw [hm] at hparse <;> dsimp only at hparse
    · cases hparse
    rcases hpk : parseKnownArgs P.actions finalArgs c' with e | pres <;>
      rw [hpk] at hparse <;> dsimp only at hparse
    · cases hparse
    rw [if_neg (by simp)] at hparse
    by_cases he : pres.extras = []
    · rw [if_neg (by simp [he])] at hparse
      have hout : res.outputs
          = (if (assembleRecords P.schemas pres.ns 0).2 ≠ []
             then (assembleRecords P.schemas pres.ns 0).1
                ++ [.extraNamespace (assembleRecords P.schemas pres.ns 0).2]
             else (assembleRecords P.schemas pres.ns 0).1) := by
        cases hparse
        rfl
      rw [hsch] at hout
      obtain ⟨flds, hf⟩ := assembleRecords_getElem? ss pres.ns 0 i hi
      have hlen : i < (assembleRecords ss pres.ns 0).1.length := by
        rw [assembleRecords_length]
        exact hi
      refine ⟨flds, ?_⟩
      rw [hout]
      by_cases hns : (assembleRecords ss pres.ns 0).2 = []
      · simpa [hns] using hf
      · rw [if_pos (by simpa using hns), List.getElem?_append_left hlen]
        simpa using hf
    · rw [if_pos (by simpa using he)] at hparse
      cases hparse

/-- Schema `{x: int = dArg(default=1)}`. -/
def c10SchemaX : Schema := ⟨[⟨tk "x", .prim .bint, some (.sint 1), none, []⟩]⟩

/-- Schema `{y: int = dArg(default=2)}`. -/
def c10SchemaY : Schema := ⟨[⟨tk "y", .prim .bint, some (.sint 2), none, []⟩]⟩

/-- Witness for `c10_single_vs_tuple`: with the single schema `{x}` the
result is the bare instance; with the tuple `({x}, {y})` the result is the
tuple of both instances in passing order, the 0-th being the `{x}` record. -/
theorem c10_single_vs_tuple_witness :
    dargparse [c10SchemaX] false (tk "--cfg") [] noFiles 0
      = .ok (.single (.record 0 [(tk "x", .scalar (.sint 1))]), []) ∧
    dargparse [c10SchemaX, c10SchemaY] true (tk "--cfg") [] noFiles 0
      = .ok (.tuple [.record 0 [(tk "x", .scalar (.sint 1))],
                     .record 1 [(tk "y", .scalar (.sint 2))]], []) ∧
    ∃ flds, [Output.record 0 [(tk "x", .scalar (.sint 1))],
             Output.record 1 [(tk "y", .scalar (.sint 2))]][0]?
        = some (.record 0 flds) := by
  refine ⟨?_, ?_, ?_⟩
  · exact (c10_single_vs_tuple [c10SchemaX] (tk "--cfg") [] noFiles 0 0
      ⟨[⟨[tk "--x"], tk "x", .store .cint .one none none, .scalar (.sint 1), false⟩],
       [c10SchemaX]⟩
      ⟨[.record 0 [(tk "x", .scalar (.sint 1))]], []⟩
      (by decide) (by decide)).1 _ rfl
  · exact (c10_single_vs_tuple [c10SchemaX, c10SchemaY] (tk "--cfg") [] noFiles 0 0
      ⟨[⟨[tk "--x"], tk "x", .store .cint .one none none, .scalar (.sint 1), false⟩,
        ⟨[tk "--y"], tk "y", .store .cint .one none none, .scalar (.sint 2), false⟩],
       [c10SchemaX, c10SchemaY]⟩
      ⟨[.record 0 [(tk "x", .scalar (.sint 1))],
        .record 1 [(tk "y", .scalar (.sint 2))]], []⟩
      (by decide) (by decide)).2.1
  · exact (c10_single_vs_tuple [c10SchemaX, c10SchemaY] (tk "--cfg") [] noFiles 0 0
      ⟨[⟨[tk "--x"], tk "x", .store .cint .one none none, .scalar (.sint 1), false⟩,
        ⟨[tk "--y"], tk "y", .store .cint .one none none, .scalar (.sint 2), false⟩],
       [c10SchemaX, c10SchemaY]⟩
      ⟨[.record 0 [(tk "x", .scalar (.sint 1))],
        .record 1 [(tk "y", .scalar (.sint 2))]], []⟩
      (by decide) (by decide)).2.2 0 (by decide)

end Darg
